import Mathlib

/-!
# Social_Media_MERN: the server entry point `server/index.js`

A shallow embedding of the Express application assembled in `server/index.js`:
the upload storage (lines 67-76), the route table (lines 39-87), the listen
port (line 92) and the start-up sequence (lines 95-103), together with the
parts of Express, multer and Node's `path` module that the file relies on.
-/

namespace SocialMedia

/-! ## Node's POSIX `path` module -/

/-- Cut a character list at every slash; empty pieces are kept. -/
def splitOnSlash : List Char → List (List Char)
  | [] => [[]]
  | c :: cs =>
    if c = '/' then [] :: splitOnSlash cs
    else
      match splitOnSlash cs with
      | [] => [[c]]
      | s :: ss => (c :: s) :: ss

/-- The non-empty segments of a path string. -/
def segments (s : String) : List String :=
  ((splitOnSlash s.data).filter (fun seg => !seg.isEmpty)).map String.mk

/-- The loop of `normalizeString`: `acc` is the stack of kept segments, newest first. -/
def normalizeParts (allowAboveRoot : Bool) : List String → List String → List String
  | acc, [] => acc.reverse
  | acc, seg :: rest =>
    if seg = "." then normalizeParts allowAboveRoot acc rest
    else if seg = ".." then
      match acc with
      | top :: below =>
        if top = ".." then normalizeParts allowAboveRoot (".." :: acc) rest
        else normalizeParts allowAboveRoot below rest
      | [] =>
        if allowAboveRoot then normalizeParts allowAboveRoot [".."] rest
        else normalizeParts allowAboveRoot [] rest
    else normalizeParts allowAboveRoot (seg :: acc) rest

/-- The function `normalizeString(path, allowAboveRoot, "/")`. -/
def normalizeString (path : String) (allowAboveRoot : Bool) : String :=
  "/".intercalate (normalizeParts allowAboveRoot [] (segments path))

/-- Whether the path starts with a slash. -/
def isAbsolute (path : String) : Bool :=
  path.data.head? == some '/'

/-- The function `path.normalize`. -/
def pathNormalize (path : String) : String :=
  if path = "" then "."
  else
    let trailingSeparator : Bool := path.data.getLast? == some '/'
    let body := normalizeString path (!isAbsolute path)
    if body = "" then
      if isAbsolute path then "/" else if trailingSeparator then "./" else "."
    else
      let body := if trailingSeparator then body ++ "/" else body
      if isAbsolute path then "/" ++ body else body

/-- The function `path.join`. -/
def pathJoin (args : List String) : String :=
  match args.filter (fun a => a != "") with
  | [] => "."
  | parts => pathNormalize ("/".intercalate parts)

/-- The function `path.resolve(p)` in a process whose working directory is the
absolute path `cwd`: the file a relative name denotes when it is opened. -/
def pathResolve (cwd p : String) : String :=
  let full := if isAbsolute p then p else cwd ++ "/" ++ p
  "/" ++ normalizeString full false

/-! ## Requests -/

/-- One file part of a multipart body, as multer hands it to the storage callbacks. -/
structure FilePart where
  fieldname : String
  originalname : String
  mimetype : String
  content : List Nat
  deriving DecidableEq, Repr

/-- The file record multer attaches to the request once a file is written. -/
structure UploadedFile where
  fieldname : String
  originalname : String
  mimetype : String
  destination : String
  filename : String
  path : String
  size : Nat
  deriving DecidableEq, Repr

/-- The mutable part of a request, handed from one handler to the next.
`multipart` is `none` for a body that is not `multipart/form-data`, and otherwise
lists the file parts of the body in order. -/
structure Ctx where
  authorization : Option String
  multipart : Option (List FilePart)
  file : Option UploadedFile
  user : Option String
  deriving DecidableEq, Repr

/-! ## FILE STORAGE (lines 67-76) -/

/-- The arguments a storage function passes to its callback `cb(err, value)`. -/
structure Callback where
  err : Option String
  value : String
  deriving DecidableEq, Repr

/-- Line 68-70: `destination: function (req, file, cb) { cb(null, "public/assets"); }`. -/
def storage.destination (_req : Ctx) (_file : FilePart) : Callback :=
  ⟨none, "public/assets"⟩

/-- Line 71-73: `filename: function (req, file, cb) { cb(null, file.originalname); }`. -/
def storage.filename (_req : Ctx) (file : FilePart) : Callback :=
  ⟨none, file.originalname⟩

/-- The path `DiskStorage._handleFile` opens for writing:
`path.join(destination, filename)`, or the error a callback reported. -/
def storage.finalPath (req : Ctx) (file : FilePart) : Except String String :=
  match (storage.destination req file).err with
  | some e => .error e
  | none =>
    match (storage.filename req file).err with
    | some e => .error e
    | none =>
      .ok (pathJoin [(storage.destination req file).value, (storage.filename req file).value])

/-! ## multer: `upload.single(field)` over the disk storage -/

/-- What a handler does to the asset directory. -/
inductive Effect where
  | fileWritten (path : String) (content : List Nat)
  | fileRemoved (path : String)
  deriving DecidableEq, Repr

/-- How a handler ends: `next()`, `next(err)`, or a response without `next`. -/
inductive Outcome where
  | next (ctx : Ctx)
  | error (err : String)
  | respond (status : Nat)
  deriving DecidableEq, Repr

/-- Whether the handler called `next()` without an error. -/
def Outcome.forwards : Outcome → Bool
  | .next _ => true
  | _ => false

/-- The effects of one handler invocation and how it ended. -/
structure HandlerResult where
  effects : List Effect
  outcome : Outcome
  deriving DecidableEq, Repr

/-- The file system as the writer sees it: the error raised when the file at a
path is written, `none` when the write succeeds. -/
abbrev Disk := String → Option String

/-- The clean-up of `abortWithError`: every file written so far is removed. -/
def removeUploadedFiles (uploaded : List UploadedFile) : List Effect :=
  uploaded.map (fun f => Effect.fileRemoved f.path)

/-- The record `_handleFile` reports for a file written at `path`. -/
def fileInfo (req : Ctx) (part : FilePart) (path : String) : UploadedFile :=
  { fieldname := part.fieldname, originalname := part.originalname,
    mimetype := part.mimetype,
    destination := (storage.destination req part).value,
    filename := (storage.filename req part).value,
    path := path, size := part.content.length }

/-- The `file` events of one multipart body, in order. `filesLeft` is the budget
of the accepted field (`single` starts it at 1; every other field has budget 0).
A part without a file name is skipped; a part over budget aborts the upload;
otherwise the storage writes the file at its final path. -/
def processFiles (disk : Disk) (field : String) (req : Ctx) :
    Nat → List UploadedFile → List FilePart → List Effect × Except String (List UploadedFile)
  | _, uploaded, [] => ([], .ok uploaded)
  | filesLeft, uploaded, part :: rest =>
    if part.originalname = "" then processFiles disk field req filesLeft uploaded rest
    else if (if part.fieldname = field then filesLeft else 0) = 0 then
      (removeUploadedFiles uploaded, .error "LIMIT_UNEXPECTED_FILE")
    else
      match storage.finalPath req part with
      | .error e => (removeUploadedFiles uploaded, .error e)
      | .ok p =>
        match disk p with
        | some e => (removeUploadedFiles uploaded, .error e)
        | none =>
          let tail := processFiles disk field req (filesLeft - 1)
            (uploaded ++ [fileInfo req part p]) rest
          (Effect.fileWritten p part.content :: tail.1, tail.2)

/-- The middleware `upload.single(field)` of `const upload = multer({ storage })`
(line 76): a body that is not multipart is forwarded untouched; otherwise the
file parts are processed and the first stored file becomes `req.file`. -/
def uploadSingle (disk : Disk) (field : String) (req : Ctx) : HandlerResult :=
  match req.multipart with
  | none => ⟨[], .next req⟩
  | some parts =>
    match processFiles disk field req 1 [] parts with
    | (effects, .error e) => ⟨effects, .error e⟩
    | (effects, .ok uploaded) =>
      match uploaded.head? with
      | some f => ⟨effects, .next { req with file := some f }⟩
      | none => ⟨effects, .next req⟩

/-! ## Express: layers, matching and dispatch -/

/-- HTTP verbs. -/
inductive Method where
  | GET | POST | PUT | PATCH | DELETE | HEAD | OPTIONS
  deriving DecidableEq, Repr

/-- The handler functions `server/index.js` registers. -/
inductive HandlerId where
  | expressJson
  | helmet
  | crossOriginResourcePolicy
  | morgan
  | bodyParserJson
  | bodyParserUrlencoded
  | cors
  | static (root : String)
  | uploadSingle (field : String)
  | register
  | verifyToken
  | createPost
  | authRoute
  | userRoutes
  | postRoutes
  deriving DecidableEq, Repr

/-- One entry of the application's router stack. -/
inductive Layer where
  | use (handler : HandlerId)
  | mount (path : String) (handler : HandlerId)
  | route (method : Method) (path : String) (handlers : List HandlerId)
  deriving DecidableEq, Repr

/-- The handlers of a layer, in call order. -/
def Layer.handlers : Layer → List HandlerId
  | .use h => [h]
  | .mount _ h => [h]
  | .route _ _ hs => hs

/-- Whether a layer was registered for a path of its own (`app.use(path, ..)`
or a verb route), as opposed to `app.use(fn)`. -/
def Layer.hasPath : Layer → Bool
  | .use _ => false
  | _ => true

/-- Lower-case the ASCII letters of a string: routing is case-insensitive by default. -/
def lowerCase (s : String) : String :=
  String.mk (s.data.map Char.toLower)

/-- Whether the pattern of a verb route matches a request path: the regular
expression `^<path>\/?$` with flag `i` (no strict routing). -/
def routeMatches (path pathname : String) : Bool :=
  lowerCase pathname == lowerCase path || lowerCase pathname == lowerCase path ++ "/"

/-- Whether the pattern of `app.use(path, ..)` matches a request path: the
regular expression `^<path>\/?(?=\/|$)` with flag `i`: the path is an initial
part of the request path, followed by a slash or by nothing. -/
def mountMatches (path pathname : String) : Bool :=
  (lowerCase path).data.isPrefixOf (lowerCase pathname).data &&
    match (lowerCase pathname).data.drop (lowerCase path).data.length with
    | [] => true
    | c :: _ => c == '/'

/-- Whether a layer matches a request with this verb and path. A verb route
whose verb differs contributes no handler, which is the same as not matching. -/
def Layer.matches (method : Method) (pathname : String) : Layer → Bool
  | .use _ => true
  | .mount path _ => mountMatches path pathname
  | .route m path _ => m == method && routeMatches path pathname

/-- The application of `server/index.js`, lines 39-87, in registration order.
`dirname` is the value of `__dirname`. -/
def app (dirname : String) : List Layer :=
  [ .use .expressJson,
    .use .helmet,
    .use .crossOriginResourcePolicy,
    .use .morgan,
    .use .bodyParserJson,
    .use .bodyParserUrlencoded,
    .use .cors,
    .mount "/assets" (.static (pathJoin [dirname, "public/assets"])),
    .route .POST "/auth/register" [.uploadSingle "picture", .register],
    .route .POST "/posts" [.verifyToken, .uploadSingle "picture", .createPost],
    .mount "/auth" .authRoute,
    .mount "/users" .userRoutes,
    .mount "/posts" .postRoutes ]

/-- The behaviour of the handlers whose code is outside `index.js`. -/
abbrev External := HandlerId → Ctx → Outcome

/-- What each registered handler does: the upload middleware is the one built
from `storage`; every other handler is external. -/
def behaviour (ext : External) (disk : Disk) : HandlerId → Ctx → HandlerResult
  | .uploadSingle field, ctx => uploadSingle disk field ctx
  | h, ctx => ⟨[], ext h ctx⟩

/-- One handler invocation in the life of a request. -/
structure Step where
  handler : HandlerId
  effects : List Effect
  outcome : Outcome
  deriving DecidableEq, Repr

/-- Run the handlers of one layer in order (`Route.dispatch`): each is invoked
only if the one before called `next()`; `next(err)` and a response without
`next` end the chain (none of the handlers is an error handler). -/
def dispatchRoute (beh : HandlerId → Ctx → HandlerResult) :
    List HandlerId → Ctx → List Step × Outcome
  | [], ctx => ([], .next ctx)
  | h :: hs, ctx =>
    let r := beh h ctx
    match r.outcome with
    | .next ctx' =>
      let tail := dispatchRoute beh hs ctx'
      (⟨h, r.effects, r.outcome⟩ :: tail.1, tail.2)
    | .error e => ([⟨h, r.effects, r.outcome⟩], .error e)
    | .respond status => ([⟨h, r.effects, r.outcome⟩], .respond status)

/-- Walk the router stack (`Router.handle`): layers are tried in registration
order, a matching layer runs, and the walk goes on only if it forwarded. -/
def handle (beh : HandlerId → Ctx → HandlerResult) (method : Method) (pathname : String) :
    List Layer → Ctx → List Step × Outcome
  | [], ctx => ([], .next ctx)
  | layer :: rest, ctx =>
    if layer.matches method pathname then
      match dispatchRoute beh layer.handlers ctx with
      | (steps, .next ctx') =>
        let tail := handle beh method pathname rest ctx'
        (steps ++ tail.1, tail.2)
      | (steps, out) => (steps, out)
    else handle beh method pathname rest ctx

/-- An incoming request. -/
structure Request where
  method : Method
  pathname : String
  ctx : Ctx
  deriving DecidableEq, Repr

/-- The whole life of one request in the application: the handlers invoked, in
order, and how the walk ended: `next` when every matching layer forwarded (the
final handler answers 404), `error` when a handler called `next(err)` (the
final handler answers with the error), `respond` when a handler answered. -/
def serve (ext : External) (disk : Disk) (dirname : String) (req : Request) :
    List Step × Outcome :=
  handle (behaviour ext disk) req.method req.pathname (app dirname) req.ctx

/-- The handlers invoked for a request, in order. -/
def invoked (ext : External) (disk : Disk) (dirname : String) (req : Request) :
    List HandlerId :=
  (serve ext disk dirname req).1.map Step.handler

/-- The handlers of every layer matching a verb and path, in stack order. -/
def matched (method : Method) (pathname : String) (stack : List Layer) : List HandlerId :=
  (stack.filter (Layer.matches method pathname)).flatMap Layer.handlers

/-- The handler chain of the first layer with a path of its own that matches. -/
def firstPathMatch (method : Method) (pathname : String) (stack : List Layer) :
    Option (List HandlerId) :=
  ((stack.filter (fun l => l.hasPath && l.matches method pathname)).head?).map Layer.handlers

/-- The handler chain registered by `app.METHOD(path, ...)`. -/
def routeChain (method : Method) (path : String) (stack : List Layer) :
    Option (List HandlerId) :=
  stack.findSome? (fun l =>
    match l with
    | .route m p hs => if m = method ∧ p = path then some hs else none
    | _ => none)

/-! ## Static assets (line 57) against the upload directory (line 69) -/

/-- The root directory handed to `express.static` on line 57:
`path.join(__dirname, "public/assets")`. -/
def staticRoot (dirname : String) : String :=
  pathJoin [dirname, "public/assets"]

/-- The file `express.static` reads for the URL `/assets/<name>`. -/
def servedFile (dirname name : String) : String :=
  pathJoin [staticRoot dirname, name]

/-- The directory the storage destination denotes in a process whose working
directory is `cwd`: a relative name is resolved against the working directory. -/
def uploadDirectory (cwd : String) (req : Ctx) (file : FilePart) : String :=
  pathResolve cwd (storage.destination req file).value

/-- The file the disk storage writes for an upload, in a process whose working
directory is `cwd`. -/
def writtenFile (cwd : String) (req : Ctx) (file : FilePart) : Except String String :=
  (storage.finalPath req file).map (pathResolve cwd)

/-! ## MONGOOSE SETUP (lines 92-103) -/

/-- The JavaScript values that occur on lines 92-103. -/
inductive JsValue where
  | undefined
  | str (s : String)
  | num (n : Nat)
  deriving DecidableEq, Repr

/-- JavaScript truthiness: `undefined`, the empty string and 0 are falsy. -/
def JsValue.truthy : JsValue → Bool
  | .undefined => false
  | .str s => s != ""
  | .num n => n != 0

/-- The operator `a || b`: the left operand when it is truthy, else the right. -/
def JsValue.or (a b : JsValue) : JsValue :=
  if a.truthy then a else b

/-- String conversion inside a template literal. -/
def JsValue.toStr : JsValue → String
  | .undefined => "undefined"
  | .str s => s
  | .num n => toString n

/-- The object `process.env` after `dotenv.config()`: variable name to value. -/
abbrev Env := String → Option String

/-- A property read `process.env.NAME`. -/
def Env.read (env : Env) (name : String) : JsValue :=
  match env name with
  | some s => .str s
  | none => .undefined

/-- Line 92: `const PORT = process.env.PORT || 6001;`. -/
def PORT (env : Env) : JsValue :=
  (Env.read env "PORT").or (.num 6001)

/-- How the promise returned by `mongoose.connect` settles. -/
inductive ConnectResult where
  | resolved
  | rejected (error : String)
  deriving DecidableEq, Repr

/-- What `app.listen(PORT, cb)` does: the server starts listening and `cb`
runs, the call throws, or the server emits an error and `cb` never runs. -/
inductive ListenResult where
  | listening
  | threw (error : String)
  | errorEvent
  deriving DecidableEq, Repr

/-- The observable actions of lines 95-103. -/
inductive StartEvent where
  | connect (url : JsValue)
  | listen (port : JsValue)
  | log (line : String)
  deriving DecidableEq, Repr

/-- Lines 95-103: `mongoose.connect(..).then(() => app.listen(PORT, ..)).catch(..)`.
The `then` callback runs only when the connection promise resolves; the `catch`
callback runs when it rejects, or when the `then` callback throws. -/
def start (env : Env) (conn : ConnectResult) (lis : ListenResult) : List StartEvent :=
  .connect (Env.read env "MONGO_URL") ::
    match conn with
    | .resolved =>
      .listen (PORT env) ::
        match lis with
        | .listening => [.log ("Server Port: " ++ (PORT env).toStr)]
        | .threw error => [.log (error ++ " did not connect")]
        | .errorEvent => []
    | .rejected error => [.log (error ++ " did not connect")]

/-- Whether an action is a call of `app.listen`. -/
def StartEvent.isListen : StartEvent → Bool
  | .listen _ => true
  | _ => false

/-- Whether an effect stores a file. -/
def Effect.isWrite : Effect → Bool
  | .fileWritten _ _ => true
  | .fileRemoved _ => false

/-- Whether a handler is a multer upload middleware. -/
def HandlerId.isUpload : HandlerId → Bool
  | .uploadSingle _ => true
  | _ => false

/-- The number of files stored during a list of handler invocations. -/
def filesStored (steps : List Step) : Nat :=
  (steps.flatMap Step.effects).countP Effect.isWrite

/-- A request that carries no file: the body is not multipart, or every file
part of it has an empty file name (an empty file input of a form). -/
def Ctx.hasNoFile (req : Ctx) : Prop :=
  match req.multipart with
  | none => True
  | some parts => ∀ p ∈ parts, p.originalname = ""

/-- The handlers registered with `app.use(fn)` on lines 39-54, in order. -/
def globalMiddleware : List HandlerId :=
  [.expressJson, .helmet, .crossOriginResourcePolicy, .morgan, .bodyParserJson,
    .bodyParserUrlencoded, .cors]

/-! ## Sample inputs -/

/-- A behaviour of the external handlers: the token check rejects a request
without an `Authorization` header with 403 and otherwise binds a user; the
controllers and routers respond; every other middleware forwards. -/
def sampleExternal : External
  | .verifyToken, ctx =>
    match ctx.authorization with
    | none => .respond 403
    | some _ => .next { ctx with user := some "u1" }
  | .register, _ => .respond 201
  | .createPost, _ => .respond 201
  | .authRoute, _ => .respond 404
  | .userRoutes, _ => .respond 404
  | .postRoutes, _ => .respond 404
  | .static _, _ => .respond 200
  | _, ctx => .next ctx

/-- A disk on which every write succeeds. -/
def healthyDisk : Disk := fun _ => none

/-- A disk on which every write fails. -/
def fullDisk : Disk := fun _ => some "ENOSPC"

/-- A file part in the field `picture`. -/
def picture : FilePart := ⟨"picture", "a.png", "image/png", [137, 80, 78, 71]⟩

/-- Another file with the same original name and different content. -/
def otherPicture : FilePart := ⟨"picture", "a.png", "image/png", [255, 216]⟩

/-- A multipart request context with one picture and no bearer token. -/
def anonymousUpload : Ctx := ⟨none, some [picture], none, none⟩

/-- A multipart request context with one picture and a bearer token. -/
def signedUpload : Ctx := ⟨some "Bearer t", some [picture], none, none⟩

/-- A JSON request context: no multipart body, no token. -/
def plainRequest : Ctx := ⟨none, none, none, none⟩

/-! ## Routing lemmas -/

theorem dispatchRoute_append (beh : HandlerId → Ctx → HandlerResult)
    (hs₁ hs₂ : List HandlerId) (ctx : Ctx) :
    dispatchRoute beh (hs₁ ++ hs₂) ctx =
      match dispatchRoute beh hs₁ ctx with
      | (steps, .next ctx') =>
        ((steps ++ (dispatchRoute beh hs₂ ctx').1), (dispatchRoute beh hs₂ ctx').2)
      | (steps, out) => (steps, out) := by
  induction hs₁ generalizing ctx with
  | nil => simp [dispatchRoute]
  | cons h hs ih =>
    simp only [List.cons_append, dispatchRoute]
    cases hout : (beh h ctx).outcome with
    | next ctx' =>
      have := ih ctx'
      cases hd : dispatchRoute beh hs ctx' with
      | mk steps out =>
        rw [hd] at this
        cases out <;> simp_all
    | error e => simp
    | respond st => simp

/-- Walking the stack is running, as one chain, the handlers of the matching layers. -/
theorem handle_eq_dispatchRoute (beh : HandlerId → Ctx → HandlerResult)
    (method : Method) (pathname : String) (stack : List Layer) (ctx : Ctx) :
    handle beh method pathname stack ctx = dispatchRoute beh (matched method pathname stack) ctx := by
  induction stack generalizing ctx with
  | nil => simp [handle, matched, dispatchRoute]
  | cons l rest ih =>
    by_cases hm : l.matches method pathname = true
    · have hmat : matched method pathname (l :: rest) = l.handlers ++ matched method pathname rest := by
        simp [matched, List.filter, hm]
      rw [hmat, dispatchRoute_append]
      simp only [handle, hm, if_true]
      cases hd : dispatchRoute beh l.handlers ctx with
      | mk steps out =>
        cases out with
        | next ctx' => simp [ih ctx']
        | error e => simp
        | respond st => simp
    · have hmat : matched method pathname (l :: rest) = matched method pathname rest := by
        simp [matched, List.filter, hm]
      rw [hmat]
      simp only [handle, hm]
      exact ih ctx

/-- The `i`-th invocation of a chain is of the `i`-th handler, it is what that
handler does on some context, and every invocation before it forwarded. -/
theorem dispatchRoute_getElem? (beh : HandlerId → Ctx → HandlerResult)
    (hs : List HandlerId) (ctx : Ctx) (i : Nat) (s : Step)
    (h : (dispatchRoute beh hs ctx).1[i]? = some s) :
    hs[i]? = some s.handler ∧
    (∃ c, s.effects = (beh s.handler c).effects ∧ s.outcome = (beh s.handler c).outcome) ∧
    ∀ j, j < i → ∃ t, (dispatchRoute beh hs ctx).1[j]? = some t ∧ t.outcome.forwards = true := by
  induction hs generalizing ctx i with
  | nil => simp [dispatchRoute] at h
  | cons a hs ih =>
    simp only [dispatchRoute] at h ⊢
    cases hout : (beh a ctx).outcome with
    | next ctx' =>
      simp only [hout] at h ⊢
      cases i with
      | zero =>
        simp at h
        subst h
        exact ⟨by simp, ⟨ctx, by simp [hout]⟩, by intro j hj; omega⟩
      | succ i =>
        simp only [List.getElem?_cons_succ] at h
        obtain ⟨h1, h2, h3⟩ := ih ctx' i h
        refine ⟨by simpa using h1, h2, ?_⟩
        intro j hj
        cases j with
        | zero => exact ⟨⟨a, (beh a ctx).effects, .next ctx'⟩, by simp, rfl⟩
        | succ j =>
          obtain ⟨t, ht, hf⟩ := h3 j (by omega)
          exact ⟨t, by simpa using ht, hf⟩
    | error e =>
      simp only [hout] at h ⊢
      cases i with
      | zero =>
        simp at h
        subst h
        exact ⟨by simp, ⟨ctx, by simp [hout]⟩, by intro j hj; omega⟩
      | succ i => simp at h
    | respond st =>
      simp only [hout] at h ⊢
      cases i with
      | zero =>
        simp at h
        subst h
        exact ⟨by simp, ⟨ctx, by simp [hout]⟩, by intro j hj; omega⟩
      | succ i => simp at h

theorem routeMatches_iff (path pathname : String) :
    routeMatches path pathname = true ↔
      lowerCase pathname = lowerCase path ∨ lowerCase pathname = lowerCase path ++ "/" := by
  simp [routeMatches]

theorem lowerCase_posts : lowerCase "/posts" = "/posts" := by decide

theorem lowerCase_register : lowerCase "/auth/register" = "/auth/register" := by decide

/-- Which patterns of the stack match a path that the route `/posts` matches. -/
theorem patterns_posts (pathname : String) (hk : routeMatches "/posts" pathname = true) :
    mountMatches "/assets" pathname = false ∧
    routeMatches "/auth/register" pathname = false ∧
    mountMatches "/auth" pathname = false ∧
    mountMatches "/users" pathname = false ∧
    mountMatches "/posts" pathname = true := by
  rw [routeMatches_iff, lowerCase_posts] at hk
  rcases hk with h | h <;> simp only [mountMatches, routeMatches, h] <;> decide

/-- Which patterns of the stack match a path that the route `/auth/register` matches. -/
theorem patterns_register (pathname : String)
    (hk : routeMatches "/auth/register" pathname = true) :
    mountMatches "/assets" pathname = false ∧
    routeMatches "/posts" pathname = false ∧
    mountMatches "/auth" pathname = true ∧
    mountMatches "/users" pathname = false ∧
    mountMatches "/posts" pathname = false := by
  rw [routeMatches_iff, lowerCase_register] at hk
  rcases hk with h | h <;> simp only [mountMatches, routeMatches, h] <;> decide

/-- The handlers a `POST /posts` request can reach, in order. -/
theorem matched_posts (dirname pathname : String)
    (hk : routeMatches "/posts" pathname = true) :
    matched .POST pathname (app dirname) =
      globalMiddleware ++ [.verifyToken, .uploadSingle "picture", .createPost, .postRoutes] := by
  obtain ⟨a1, a2, a3, a4, a5⟩ := patterns_posts pathname hk
  simp [matched, app, List.filter, Layer.matches, hk, a1, a2, a3, a4, a5,
    Layer.handlers, globalMiddleware]

/-- The handlers a `POST /auth/register` request can reach, in order. -/
theorem matched_register (dirname pathname : String)
    (hk : routeMatches "/auth/register" pathname = true) :
    matched .POST pathname (app dirname) =
      globalMiddleware ++ [.uploadSingle "picture", .register, .authRoute] := by
  obtain ⟨a1, a2, a3, a4, a5⟩ := patterns_register pathname hk
  simp [matched, app, List.filter, Layer.matches, hk, a1, a2, a3, a4, a5,
    Layer.handlers, globalMiddleware]

theorem firstPathMatch_posts (dirname pathname : String)
    (hk : routeMatches "/posts" pathname = true) :
    firstPathMatch .POST pathname (app dirname) =
      some [.verifyToken, .uploadSingle "picture", .createPost] := by
  obtain ⟨a1, a2, a3, a4, a5⟩ := patterns_posts pathname hk
  simp [firstPathMatch, app, List.filter, Layer.matches, Layer.hasPath, hk, a1, a2, a3, a4, a5,
    Layer.handlers]

theorem firstPathMatch_register (dirname pathname : String)
    (hk : routeMatches "/auth/register" pathname = true) :
    firstPathMatch .POST pathname (app dirname) = some [.uploadSingle "picture", .register] := by
  obtain ⟨a1, a2, a3, a4, a5⟩ := patterns_register pathname hk
  simp [firstPathMatch, app, List.filter, Layer.matches, Layer.hasPath, hk, a1, a2, a3, a4, a5,
    Layer.handlers]

/-- The invocations of a request are those of the chain of its matching layers. -/
theorem serve_steps (ext : External) (disk : Disk) (dirname : String) (req : Request) :
    (serve ext disk dirname req).1 =
      (dispatchRoute (behaviour ext disk)
        (matched req.method req.pathname (app dirname)) req.ctx).1 := by
  unfold serve
  rw [handle_eq_dispatchRoute]

/-! ## Upload lemmas -/

theorem storage_finalPath_eq (req : Ctx) (file : FilePart) :
    storage.finalPath req file = .ok (pathJoin ["public/assets", file.originalname]) := rfl

theorem removeUploadedFiles_countP (uploaded : List UploadedFile) :
    (removeUploadedFiles uploaded).countP Effect.isWrite = 0 := by
  induction uploaded with
  | nil => rfl
  | cons f fs ih =>
    simp only [removeUploadedFiles, List.map_cons] at ih ⊢
    rw [List.countP_cons_of_neg]
    · exact ih
    · simp [Effect.isWrite]

/-- The upload never writes more files than the budget of the accepted field. -/
theorem processFiles_countP_le (disk : Disk) (field : String) (req : Ctx)
    (filesLeft : Nat) (uploaded : List UploadedFile) (parts : List FilePart) :
    (processFiles disk field req filesLeft uploaded parts).1.countP Effect.isWrite
      ≤ filesLeft := by
  induction parts generalizing filesLeft uploaded with
  | nil => simp [processFiles]
  | cons part rest ih =>
    simp only [processFiles, storage_finalPath_eq]
    by_cases hname : part.originalname = ""
    · simp only [hname, if_true]
      exact ih filesLeft uploaded
    · simp only [hname, if_false]
      by_cases hf : part.fieldname = field
      · simp only [hf, if_true]
        by_cases h0 : filesLeft = 0
        · simp [h0, removeUploadedFiles_countP]
        · simp only [h0, if_false]
          cases hd : disk (pathJoin ["public/assets", part.originalname]) with
          | some e => simp [removeUploadedFiles_countP]
          | none =>
            have := ih (filesLeft - 1)
              (uploaded ++ [fileInfo req part (pathJoin ["public/assets", part.originalname])])
            simp only [List.countP_cons, Effect.isWrite, if_true]
            omega
      · simp [hf, removeUploadedFiles_countP]

/-- A successful upload stored a sublist of the file parts, all of the accepted
field and within the budget; it wrote each at `public/assets/<original name>`
and recorded each in order. -/
theorem processFiles_ok (disk : Disk) (field : String) (req : Ctx)
    (filesLeft : Nat) (uploaded : List UploadedFile) (parts : List FilePart)
    (effects : List Effect) (result : List UploadedFile)
    (h : processFiles disk field req filesLeft uploaded parts = (effects, .ok result)) :
    ∃ stored : List FilePart, stored.Sublist parts ∧ stored.length ≤ filesLeft ∧
      (∀ part ∈ stored, part.fieldname = field ∧ part.originalname ≠ "") ∧
      result = uploaded ++ stored.map (fun part =>
        fileInfo req part (pathJoin ["public/assets", part.originalname])) ∧
      effects = stored.map (fun part =>
        Effect.fileWritten (pathJoin ["public/assets", part.originalname]) part.content) := by
  induction parts generalizing filesLeft uploaded effects result with
  | nil =>
    simp only [processFiles, Prod.mk.injEq, Except.ok.injEq] at h
    exact ⟨[], List.Sublist.refl _, by simp, by simp, by simp [h.2], by simp [h.1]⟩
  | cons part rest ih =>
    simp only [processFiles, storage_finalPath_eq] at h
    by_cases hname : part.originalname = ""
    · simp only [hname, if_true] at h
      obtain ⟨stored, h1, h2, h3, h4, h5⟩ := ih filesLeft uploaded effects result h
      exact ⟨stored, h1.cons part, h2, h3, h4, h5⟩
    · simp only [hname, if_false] at h
      by_cases hf : part.fieldname = field
      · simp only [hf, if_true] at h
        by_cases h0 : filesLeft = 0
        · simp [h0] at h
        · simp only [h0, if_false] at h
          cases hd : disk (pathJoin ["public/assets", part.originalname]) with
          | some e => simp [hd] at h
          | none =>
            simp only [hd, Prod.mk.injEq] at h
            obtain ⟨he, hr⟩ := h
            obtain ⟨stored, h1, h2, h3, h4, h5⟩ := ih (filesLeft - 1) _ _ result
              (Prod.ext rfl hr)
            refine ⟨part :: stored, h1.cons₂ part, by simp; omega, ?_, ?_, ?_⟩
            · intro q hq
              rcases List.mem_cons.mp hq with rfl | hq
              · exact ⟨hf, hname⟩
              · exact h3 q hq
            · simp [h4]
            · rw [← he, List.map_cons]
              exact congrArg _ h5
      · simp [hf] at h

/-- A request without a file passes the upload middleware untouched. -/
theorem processFiles_noFile (disk : Disk) (field : String) (req : Ctx)
    (filesLeft : Nat) (uploaded : List UploadedFile) (parts : List FilePart)
    (h : ∀ p ∈ parts, p.originalname = "") :
    processFiles disk field req filesLeft uploaded parts = ([], .ok uploaded) := by
  induction parts with
  | nil => rfl
  | cons part rest ih =>
    have hp : part.originalname = "" := h part (List.mem_cons_self _ _)
    simp only [processFiles, hp, if_true]
    exact ih (fun p hp => h p (List.mem_cons_of_mem _ hp))

theorem uploadSingle_noFile (disk : Disk) (field : String) (req : Ctx)
    (h : req.hasNoFile) : uploadSingle disk field req = ⟨[], .next req⟩ := by
  unfold Ctx.hasNoFile at h
  unfold uploadSingle
  cases hm : req.multipart with
  | none => rfl
  | some parts =>
    rw [hm] at h
    simp only [processFiles_noFile disk field req 1 [] parts h, List.head?_nil]

theorem uploadSingle_countP_le (disk : Disk) (field : String) (req : Ctx) :
    (uploadSingle disk field req).effects.countP Effect.isWrite ≤ 1 := by
  unfold uploadSingle
  cases hm : req.multipart with
  | none => simp
  | some parts =>
    have := processFiles_countP_le disk field req 1 [] parts
    cases hp : processFiles disk field req 1 [] parts with
    | mk effects res =>
      rw [hp] at this
      cases res with
      | error e => simpa [hp] using this
      | ok ups =>
        cases hh : ups.head? <;> simpa [hp, hh] using this

/-- Every file the upload writes is a file part of the body, written at
`public/assets/<original name>` with the content of that part. -/
theorem processFiles_written (disk : Disk) (field : String) (req : Ctx)
    (filesLeft : Nat) (uploaded : List UploadedFile) (parts : List FilePart)
    (path : String) (content : List Nat)
    (h : Effect.fileWritten path content ∈
      (processFiles disk field req filesLeft uploaded parts).1) :
    ∃ part ∈ parts, path = pathJoin ["public/assets", part.originalname] ∧
      content = part.content := by
  induction parts generalizing filesLeft uploaded with
  | nil => simp [processFiles] at h
  | cons part rest ih =>
    simp only [processFiles, storage_finalPath_eq] at h
    by_cases hname : part.originalname = ""
    · simp only [hname, if_true] at h
      obtain ⟨q, hq, hq'⟩ := ih filesLeft uploaded h
      exact ⟨q, List.mem_cons_of_mem _ hq, hq'⟩
    · simp only [hname, if_false] at h
      by_cases hb : (if part.fieldname = field then filesLeft else 0) = 0
      · simp [hb, removeUploadedFiles] at h
      · simp only [hb, if_false] at h
        cases hd : disk (pathJoin ["public/assets", part.originalname]) with
        | some e => simp [hd, removeUploadedFiles] at h
        | none =>
          simp only [hd, List.mem_cons] at h
          rcases h with h | h
          · simp only [Effect.fileWritten.injEq] at h
            exact ⟨part, List.mem_cons_self _ _, h.1, h.2⟩
          · obtain ⟨q, hq, hq'⟩ := ih _ _ h
            exact ⟨q, List.mem_cons_of_mem _ hq, hq'⟩

theorem uploadSingle_written (disk : Disk) (field : String) (req : Ctx)
    (path : String) (content : List Nat)
    (h : Effect.fileWritten path content ∈ (uploadSingle disk field req).effects) :
    ∃ parts part, req.multipart = some parts ∧ part ∈ parts ∧
      path = pathJoin ["public/assets", part.originalname] ∧ content = part.content := by
  unfold uploadSingle at h
  cases hm : req.multipart with
  | none => simp [hm] at h
  | some parts =>
    have key := processFiles_written disk field req 1 [] parts path content
    cases hp : processFiles disk field req 1 [] parts with
    | mk effects res =>
      rw [hp] at key
      have hmem : Effect.fileWritten path content ∈ effects := by
        cases res with
        | error e => simpa [hm, hp] using h
        | ok ups => cases hh : ups.head? <;> simpa [hm, hp, hh] using h
      obtain ⟨part, h1, h2⟩ := key hmem
      exact ⟨parts, part, rfl, h1, h2⟩

/-- What a forwarding upload did: nothing, or exactly one file of the accepted
field was written and is the `file` of the forwarded request. -/
theorem uploadSingle_forward (disk : Disk) (field : String) (req ctx' : Ctx)
    (h : (uploadSingle disk field req).outcome = .next ctx') :
    ((uploadSingle disk field req).effects = [] ∧ ctx' = req) ∨
    ∃ parts part, req.multipart = some parts ∧ part ∈ parts ∧ part.fieldname = field ∧
      (uploadSingle disk field req).effects =
        [Effect.fileWritten (pathJoin ["public/assets", part.originalname]) part.content] ∧
      ctx' =
        { req with
          file := some (fileInfo req part (pathJoin ["public/assets", part.originalname])) } := by
  obtain ⟨auth, mp, file, user⟩ := req
  cases mp with
  | none =>
    simp only [uploadSingle, Outcome.next.injEq] at h
    exact Or.inl ⟨rfl, h.symm⟩
  | some parts =>
    simp only [uploadSingle] at h ⊢
    cases hp : processFiles disk field ⟨auth, some parts, file, user⟩ 1 [] parts with
    | mk effects res =>
      rw [hp] at h
      cases res with
      | error e => simp at h
      | ok ups =>
        obtain ⟨stored, h1, h2, h3, h4, h5⟩ := processFiles_ok disk field _ 1 [] parts _ _ hp
        match stored, h1, h2, h3, h4, h5 with
        | [], _, _, _, h4, h5 =>
          simp only [List.map_nil, List.append_nil] at h4 h5
          subst h4 h5
          simp only [List.head?_nil, Outcome.next.injEq] at h
          exact Or.inl ⟨rfl, h.symm⟩
        | [part], h1, _, h3, h4, h5 =>
          simp only [List.map_cons, List.map_nil, List.nil_append] at h4 h5
          subst h4 h5
          simp only [List.head?_cons, Outcome.next.injEq] at h
          exact Or.inr ⟨parts, part, rfl, h1.subset (List.mem_singleton_self _),
            (h3 part (List.mem_singleton_self _)).1, rfl, h.symm⟩
        | _ :: _ :: _, _, h2, _, _, _ => simp at h2

/-! ## Traces of the application -/

/-- The handlers a chain invokes are an initial segment of the chain. -/
theorem dispatchRoute_handlers (beh : HandlerId → Ctx → HandlerResult)
    (hs : List HandlerId) (ctx : Ctx) :
    (dispatchRoute beh hs ctx).1.map Step.handler <+: hs := by
  induction hs generalizing ctx with
  | nil => simp [dispatchRoute]
  | cons a hs ih =>
    simp only [dispatchRoute]
    cases hout : (beh a ctx).outcome with
    | next ctx' =>
      obtain ⟨t, ht⟩ := ih ctx'
      exact ⟨t, by simp [ht]⟩
    | error e => exact ⟨hs, by simp⟩
    | respond st => exact ⟨hs, by simp⟩

/-- After an invocation that forwarded, the next handler of the chain is invoked. -/
theorem dispatchRoute_succ (beh : HandlerId → Ctx → HandlerResult)
    (hs : List HandlerId) (ctx : Ctx) (i : Nat) (s : Step) (a : HandlerId)
    (h : (dispatchRoute beh hs ctx).1[i]? = some s) (hf : s.outcome.forwards = true)
    (ha : hs[i + 1]? = some a) :
    ∃ t, (dispatchRoute beh hs ctx).1[i + 1]? = some t ∧ t.handler = a := by
  induction hs generalizing ctx i with
  | nil => simp at ha
  | cons b hs ih =>
    simp only [dispatchRoute] at h ⊢
    cases hout : (beh b ctx).outcome with
    | next ctx' =>
      simp only [hout] at h ⊢
      cases i with
      | zero =>
        simp only [List.getElem?_cons_succ] at ha ⊢
        cases hs with
        | nil => simp at ha
        | cons c hs =>
          simp only [List.getElem?_cons_zero, Option.some.injEq] at ha
          simp only [dispatchRoute]
          cases hc : (beh c ctx').outcome <;> simp [ha]
      | succ i =>
        simp only [List.getElem?_cons_succ] at h ha ⊢
        exact ih ctx' i h ha
    | error e =>
      simp only [hout] at h
      cases i with
      | zero =>
        simp at h
        subst h
        simp [Outcome.forwards] at hf
      | succ i => simp at h
    | respond st =>
      simp only [hout] at h
      cases i with
      | zero =>
        simp at h
        subst h
        simp [Outcome.forwards] at hf
      | succ i => simp at h

/-- A chain whose handler reported an error ends with that error. -/
theorem dispatchRoute_error (beh : HandlerId → Ctx → HandlerResult)
    (hs : List HandlerId) (ctx : Ctx) (s : Step) (e : String)
    (h : s ∈ (dispatchRoute beh hs ctx).1) (he : s.outcome = .error e) :
    (dispatchRoute beh hs ctx).2 = .error e := by
  induction hs generalizing ctx with
  | nil => simp [dispatchRoute] at h
  | cons b hs ih =>
    simp only [dispatchRoute] at h ⊢
    cases hout : (beh b ctx).outcome with
    | next ctx' =>
      simp only [hout, List.mem_cons] at h ⊢
      rcases h with h | h
      · subst h
        simp at he
      · exact ih ctx' h
    | error e' =>
      simp only [hout, List.mem_singleton] at h ⊢
      subst h
      simp only [Outcome.error.injEq] at he
      rw [he]
    | respond st =>
      simp only [hout, List.mem_singleton] at h
      subst h
      simp at he

/-- Only the upload middleware touches the asset directory. -/
theorem behaviour_effects (ext : External) (disk : Disk) (h : HandlerId) (c : Ctx)
    (hu : h.isUpload = false) : (behaviour ext disk h c).effects = [] := by
  cases h <;> first | rfl | simp [HandlerId.isUpload] at hu

/-- A chain stores at most one file per upload middleware in it. -/
theorem dispatchRoute_filesStored (ext : External) (disk : Disk)
    (hs : List HandlerId) (ctx : Ctx) :
    filesStored (dispatchRoute (behaviour ext disk) hs ctx).1 ≤ hs.countP HandlerId.isUpload := by
  induction hs generalizing ctx with
  | nil => simp [dispatchRoute, filesStored]
  | cons a hs ih =>
    have ha : (behaviour ext disk a ctx).effects.countP Effect.isWrite
        ≤ if a.isUpload = true then 1 else 0 := by
      cases hu : a.isUpload with
      | false => simp [behaviour_effects ext disk a ctx hu]
      | true =>
        cases a <;> simp [HandlerId.isUpload] at hu
        simpa [behaviour] using uploadSingle_countP_le disk _ ctx
    simp only [dispatchRoute, List.countP_cons]
    cases hout : (behaviour ext disk a ctx).outcome with
    | next ctx' =>
      have := ih ctx'
      simp only [filesStored, List.flatMap_cons, List.countP_append] at this ⊢
      omega
    | error e =>
      simp only [filesStored, List.flatMap_cons, List.flatMap_nil, List.append_nil]
      omega
    | respond st =>
      simp only [filesStored, List.flatMap_cons, List.flatMap_nil, List.append_nil]
      omega

theorem serve_getElem? (ext : External) (disk : Disk) (dirname : String) (req : Request)
    (i : Nat) (s : Step) (h : (serve ext disk dirname req).1[i]? = some s) :
    (matched req.method req.pathname (app dirname))[i]? = some s.handler ∧
    (∃ c, s.effects = (behaviour ext disk s.handler c).effects ∧
      s.outcome = (behaviour ext disk s.handler c).outcome) ∧
    ∀ j, j < i → ∃ t, (serve ext disk dirname req).1[j]? = some t ∧
      t.outcome.forwards = true := by
  rw [serve_steps] at h ⊢
  exact dispatchRoute_getElem? _ _ _ i s h

/-- Where each handler sits among those a `POST /posts` request can reach. -/
theorem posts_position (i : Nat) (h : HandlerId)
    (hi : (globalMiddleware ++
      [.verifyToken, .uploadSingle "picture", .createPost, .postRoutes])[i]? = some h) :
    (h = .verifyToken → i = 7) ∧ (h.isUpload = true → i = 8) ∧
    (h = .createPost → i = 9) ∧ (h = .postRoutes → i = 10) ∧
    (i = 7 → h = .verifyToken) ∧ (i = 8 → h = .uploadSingle "picture") ∧
    (i = 9 → h = .createPost) := by
  have hlt : i < 11 := by
    obtain ⟨hlt, _⟩ := List.getElem?_eq_some.mp hi
    simpa [globalMiddleware] using hlt
  interval_cases i <;> simp [globalMiddleware] at hi <;> subst hi <;>
    simp [HandlerId.isUpload]

/-- Where each handler sits among those a `POST /auth/register` request can reach. -/
theorem register_position (i : Nat) (h : HandlerId)
    (hi : (globalMiddleware ++
      [.uploadSingle "picture", .register, .authRoute])[i]? = some h) :
    h ≠ .verifyToken ∧ (h.isUpload = true → i = 7) ∧
    (h = .register → i = 8) ∧ (h = .authRoute → i = 9) ∧
    (i = 7 → h = .uploadSingle "picture") ∧ (i = 8 → h = .register) := by
  have hlt : i < 10 := by
    obtain ⟨hlt, _⟩ := List.getElem?_eq_some.mp hi
    simpa [globalMiddleware] using hlt
  interval_cases i <;> simp [globalMiddleware] at hi <;> subst hi <;>
    simp [HandlerId.isUpload]

theorem filesStored_eq_zero (steps : List Step) (h : ∀ s ∈ steps, s.effects = []) :
    filesStored steps = 0 := by
  simp only [filesStored, List.countP_eq_zero, List.mem_flatMap]
  rintro e ⟨s, hs, he⟩
  rw [h s hs] at he
  simp at he

theorem posts_not_register (i : Nat) (h : HandlerId)
    (hi : (globalMiddleware ++
      [.verifyToken, .uploadSingle "picture", .createPost, .postRoutes])[i]? = some h) :
    h ≠ .register := by
  have hlt : i < 11 := by
    obtain ⟨hlt, _⟩ := List.getElem?_eq_some.mp hi
    simpa [globalMiddleware] using hlt
  interval_cases i <;> simp [globalMiddleware] at hi <;> subst hi <;> simp

theorem register_not_createPost (i : Nat) (h : HandlerId)
    (hi : (globalMiddleware ++
      [.uploadSingle "picture", .register, .authRoute])[i]? = some h) :
    h ≠ .createPost := by
  have hlt : i < 10 := by
    obtain ⟨hlt, _⟩ := List.getElem?_eq_some.mp hi
    simpa [globalMiddleware] using hlt
  interval_cases i <;> simp [globalMiddleware] at hi <;> subst hi <;> simp

/-- A request on which a handler reported an error ends with that error. -/
theorem serve_error (ext : External) (disk : Disk) (dirname : String) (req : Request)
    (s : Step) (e : String) (hs : s ∈ (serve ext disk dirname req).1)
    (he : s.outcome = .error e) : (serve ext disk dirname req).2 = .error e := by
  unfold serve at hs ⊢
  rw [handle_eq_dispatchRoute] at hs ⊢
  exact dispatchRoute_error _ _ _ s e hs he

/-! ## The claims -/

/-- C1: for every request and file the disk storage passes the fixed directory
`public/assets` and the file's original name to its callbacks, with no error;
every file the upload middleware writes is written at the join of the two; and
two uploads with the same original name get the same stored path, whatever
their content. -/
theorem C1_storage_fixed_directory_original_name :
    (∀ (req : Ctx) (file : FilePart),
      storage.destination req file = ⟨none, "public/assets"⟩ ∧
      storage.filename req file = ⟨none, file.originalname⟩ ∧
      storage.finalPath req file = .ok (pathJoin ["public/assets", file.originalname])) ∧
    (∀ (disk : Disk) (field : String) (req : Ctx) (path : String) (content : List Nat),
      Effect.fileWritten path content ∈ (uploadSingle disk field req).effects →
      ∃ parts part, req.multipart = some parts ∧ part ∈ parts ∧
        path = pathJoin ["public/assets", part.originalname] ∧ content = part.content) ∧
    (∀ (req₁ req₂ : Ctx) (f₁ f₂ : FilePart), f₁.originalname = f₂.originalname →
      storage.finalPath req₁ f₁ = storage.finalPath req₂ f₂) := by
  refine ⟨fun req file => ⟨rfl, rfl, rfl⟩, uploadSingle_written, ?_⟩
  intro req₁ req₂ f₁ f₂ h
  rw [storage_finalPath_eq, storage_finalPath_eq, h]

/-- C1 at two uploads named `a.png` with different content, in different requests. -/
theorem C1_same_name_same_path_witness :
    picture.originalname = otherPicture.originalname ∧
    picture.content ≠ otherPicture.content ∧
    storage.finalPath anonymousUpload picture = storage.finalPath signedUpload otherPicture :=
  ⟨by decide, by decide,
    C1_storage_fixed_directory_original_name.2.2 anonymousUpload signedUpload
      picture otherPicture (by decide)⟩

/-- C2 as stated fails: the chain of `POST /posts` is not upload, token check,
controller; and a request with a picture and no token is rejected by the token
check without the upload middleware ever being invoked. -/
theorem C2_upload_not_before_auth :
    routeChain .POST "/posts" (app "/srv/app/server") ≠
      some [.uploadSingle "picture", .verifyToken, .createPost] ∧
    invoked sampleExternal healthyDisk "/srv/app/server" ⟨.POST, "/posts", anonymousUpload⟩ =
      globalMiddleware ++ [.verifyToken] := by
  decide

/-- C2 amended: on every route that applies both stages the token check comes
first, the upload middleware second and the controller last; the chain of
`POST /posts` is `verifyToken`, `upload.single("picture")`, `createPost`, and
the handlers invoked for a `POST /posts` request are an initial segment of the
global middleware followed by that chain and the posts router. -/
theorem C2_auth_then_upload_then_service (dirname : String) :
    routeChain .POST "/posts" (app dirname) =
      some [.verifyToken, .uploadSingle "picture", .createPost] ∧
    (∀ (m : Method) (p : String) (hs : List HandlerId), Layer.route m p hs ∈ app dirname →
      .verifyToken ∈ hs → (∃ field, .uploadSingle field ∈ hs) →
      hs = [.verifyToken, .uploadSingle "picture", .createPost]) ∧
    (∀ (ext : External) (disk : Disk) (req : Request),
      req.method = .POST → routeMatches "/posts" req.pathname = true →
      invoked ext disk dirname req <+:
        globalMiddleware ++ [.verifyToken, .uploadSingle "picture", .createPost, .postRoutes]) := by
  refine ⟨by simp [routeChain, app], ?_, ?_⟩
  · intro m p hs hmem hv hu
    simp [app] at hmem
    rcases hmem with ⟨_, _, h⟩ | ⟨_, _, h⟩
    · subst h
      simp at hv
    · exact h
  · intro ext disk req hm hk
    unfold invoked
    rw [serve_steps, hm, matched_posts dirname req.pathname hk]
    exact dispatchRoute_handlers _ _ _

/-- C2 amended, at a request with a picture and a bearer token. -/
theorem C2_auth_then_upload_then_service_witness :
    invoked sampleExternal healthyDisk "/srv/app/server" ⟨.POST, "/posts", signedUpload⟩ <+:
      globalMiddleware ++ [.verifyToken, .uploadSingle "picture", .createPost, .postRoutes] :=
  (C2_auth_then_upload_then_service "/srv/app/server").2.2 sampleExternal healthyDisk
    ⟨.POST, "/posts", signedUpload⟩ rfl (by decide)

/-- C3: for every `POST /posts` request, an invocation of the upload middleware
or of `createPost` comes after an invocation of `verifyToken` that forwarded;
so when no invocation of `verifyToken` forwards, neither the upload middleware
nor `createPost` is invoked and no file is stored. -/
theorem C3_posts_requires_auth (ext : External) (disk : Disk) (dirname : String)
    (req : Request) (hm : req.method = .POST) (hk : routeMatches "/posts" req.pathname = true) :
    (∀ (i : Nat) (s : Step), (serve ext disk dirname req).1[i]? = some s →
      s.handler.isUpload = true ∨ s.handler = .createPost →
      ∃ j t, j < i ∧ (serve ext disk dirname req).1[j]? = some t ∧
        t.handler = .verifyToken ∧ t.outcome.forwards = true) ∧
    ((∀ s ∈ (serve ext disk dirname req).1,
        s.handler = .verifyToken → s.outcome.forwards = false) →
      (∀ s ∈ (serve ext disk dirname req).1,
        s.handler.isUpload = false ∧ s.handler ≠ .createPost) ∧
      filesStored (serve ext disk dirname req).1 = 0) := by
  have first : ∀ (i : Nat) (s : Step), (serve ext disk dirname req).1[i]? = some s →
      s.handler.isUpload = true ∨ s.handler = .createPost →
      ∃ j t, j < i ∧ (serve ext disk dirname req).1[j]? = some t ∧
        t.handler = .verifyToken ∧ t.outcome.forwards = true := by
    intro i s hs hor
    obtain ⟨h1, _, h3⟩ := serve_getElem? ext disk dirname req i s hs
    rw [hm, matched_posts dirname req.pathname hk] at h1
    have hpos := posts_position i s.handler h1
    have hi : 7 < i := by
      rcases hor with h | h
      · have := hpos.2.1 h
        omega
      · have := hpos.2.2.1 h
        omega
    obtain ⟨t, ht, hf⟩ := h3 7 hi
    obtain ⟨g1, _, _⟩ := serve_getElem? ext disk dirname req 7 t ht
    rw [hm, matched_posts dirname req.pathname hk] at g1
    exact ⟨7, t, hi, ht, (posts_position 7 t.handler g1).2.2.2.2.1 rfl, hf⟩
  refine ⟨first, ?_⟩
  intro hall
  have none_invoked : ∀ s ∈ (serve ext disk dirname req).1,
      s.handler.isUpload = false ∧ s.handler ≠ .createPost := by
    intro s hs
    obtain ⟨i, hi⟩ := List.mem_iff_getElem?.mp hs
    by_contra hcon
    have hor : s.handler.isUpload = true ∨ s.handler = .createPost := by
      by_cases hu : s.handler.isUpload = true
      · exact Or.inl hu
      · right
        by_contra hc
        exact hcon ⟨by simpa using hu, hc⟩
    obtain ⟨j, t, _, ht, htv, hf⟩ := first i s hi hor
    have := hall t (List.mem_iff_getElem?.mpr ⟨j, ht⟩) htv
    rw [hf] at this
    exact absurd this (by decide)
  refine ⟨none_invoked, filesStored_eq_zero _ ?_⟩
  intro s hs
  obtain ⟨i, hi⟩ := List.mem_iff_getElem?.mp hs
  obtain ⟨_, ⟨c, hc, _⟩, _⟩ := serve_getElem? ext disk dirname req i s hi
  rw [hc]
  exact behaviour_effects ext disk s.handler c (none_invoked s hs).1

/-- C3 at a `POST /posts` request that carries a picture and no token: the
token check does not forward, and nothing is uploaded or posted. -/
theorem C3_posts_requires_auth_witness :
    (∀ s ∈ (serve sampleExternal healthyDisk "/srv/app/server"
        ⟨.POST, "/posts", anonymousUpload⟩).1,
      s.handler = .verifyToken → s.outcome.forwards = false) ∧
    (∀ s ∈ (serve sampleExternal healthyDisk "/srv/app/server"
        ⟨.POST, "/posts", anonymousUpload⟩).1,
      s.handler.isUpload = false ∧ s.handler ≠ .createPost) ∧
    filesStored (serve sampleExternal healthyDisk "/srv/app/server"
      ⟨.POST, "/posts", anonymousUpload⟩).1 = 0 :=
  have hall : ∀ s ∈ (serve sampleExternal healthyDisk "/srv/app/server"
      ⟨.POST, "/posts", anonymousUpload⟩).1,
      s.handler = .verifyToken → s.outcome.forwards = false := by decide
  ⟨hall, (C3_posts_requires_auth sampleExternal healthyDisk "/srv/app/server"
    ⟨.POST, "/posts", anonymousUpload⟩ rfl (by decide)).2 hall⟩

/-- C4: the chain of `POST /auth/register` is exactly `upload.single("picture")`
then `register`; no `POST /auth/register` request ever reaches `verifyToken`,
and whenever the upload middleware forwards, `register` is the next handler
invoked, whatever the request carries as a token. -/
theorem C4_register_without_auth (dirname : String) :
    routeChain .POST "/auth/register" (app dirname) =
      some [.uploadSingle "picture", .register] ∧
    (∀ (ext : External) (disk : Disk) (req : Request),
      req.method = .POST → routeMatches "/auth/register" req.pathname = true →
      (∀ s ∈ (serve ext disk dirname req).1, s.handler ≠ .verifyToken) ∧
      (∀ (i : Nat) (s : Step), (serve ext disk dirname req).1[i]? = some s →
        s.handler = .uploadSingle "picture" → s.outcome.forwards = true →
        ∃ t, (serve ext disk dirname req).1[i + 1]? = some t ∧ t.handler = .register)) := by
  refine ⟨by simp [routeChain, app], ?_⟩
  intro ext disk req hm hk
  constructor
  · intro s hs
    obtain ⟨i, hi⟩ := List.mem_iff_getElem?.mp hs
    obtain ⟨h1, _, _⟩ := serve_getElem? ext disk dirname req i s hi
    rw [hm, matched_register dirname req.pathname hk] at h1
    exact (register_position i s.handler h1).1
  · intro i s hi hu hf
    obtain ⟨h1, _, _⟩ := serve_getElem? ext disk dirname req i s hi
    rw [hm, matched_register dirname req.pathname hk] at h1
    have h7 : i = 7 := (register_position i s.handler h1).2.1 (by rw [hu]; rfl)
    subst h7
    rw [serve_steps, hm, matched_register dirname req.pathname hk] at hi ⊢
    exact dispatchRoute_succ _ _ _ 7 s .register hi hf (by simp [globalMiddleware])

/-- C4 at a `POST /auth/register` request with a picture and no bearer token:
the upload forwards at position 7 and `register` runs at position 8. -/
theorem C4_register_without_auth_witness :
    ∃ s t, (serve sampleExternal healthyDisk "/srv/app/server"
        ⟨.POST, "/auth/register", anonymousUpload⟩).1[7]? = some s ∧
      s.handler = .uploadSingle "picture" ∧ s.outcome.forwards = true ∧
      (serve sampleExternal healthyDisk "/srv/app/server"
        ⟨.POST, "/auth/register", anonymousUpload⟩).1[7 + 1]? = some t ∧
      t.handler = .register :=
  have hs : ∃ s, (serve sampleExternal healthyDisk "/srv/app/server"
        ⟨.POST, "/auth/register", anonymousUpload⟩).1[7]? = some s ∧
      s.handler = .uploadSingle "picture" ∧ s.outcome.forwards = true :=
    ⟨_, rfl, by decide, by decide⟩
  let ⟨s, h1, h2, h3⟩ := hs
  let ⟨t, ht⟩ := ((C4_register_without_auth "/srv/app/server").2 sampleExternal healthyDisk
    ⟨.POST, "/auth/register", anonymousUpload⟩ rfl (by decide)).2 7 s h1 h2 h3
  ⟨s, t, h1, h2, h3, ht⟩

/-- C5: on both file routes the only upload middleware is the single-file
binder of the field `picture`; a request to either route stores at most one
file; an upload that forwards either stored nothing and left the request as it
was, or stored exactly one file of the field `picture` and attached it as the
request's `file`; and a request without a file is forwarded with no file
stored and its `file` still absent. -/
theorem C5_single_picture_file (dirname : String) :
    (routeChain .POST "/auth/register" (app dirname)).map (List.filter HandlerId.isUpload) =
      some [.uploadSingle "picture"] ∧
    (routeChain .POST "/posts" (app dirname)).map (List.filter HandlerId.isUpload) =
      some [.uploadSingle "picture"] ∧
    (∀ (ext : External) (disk : Disk) (req : Request), req.method = .POST →
      routeMatches "/auth/register" req.pathname = true ∨ routeMatches "/posts" req.pathname = true →
      filesStored (serve ext disk dirname req).1 ≤ 1) ∧
    (∀ (disk : Disk) (req ctx' : Ctx),
      (uploadSingle disk "picture" req).outcome = .next ctx' →
      ((uploadSingle disk "picture" req).effects = [] ∧ ctx' = req) ∨
      ∃ parts part, req.multipart = some parts ∧ part ∈ parts ∧
        part.fieldname = "picture" ∧
        (uploadSingle disk "picture" req).effects =
          [Effect.fileWritten (pathJoin ["public/assets", part.originalname]) part.content] ∧
        ctx' =
          { req with
            file := some (fileInfo req part
              (pathJoin ["public/assets", part.originalname])) }) ∧
    (∀ (disk : Disk) (req : Ctx), req.hasNoFile → req.file = none →
      (uploadSingle disk "picture" req).effects = [] ∧
      ∃ ctx', (uploadSingle disk "picture" req).outcome = .next ctx' ∧ ctx'.file = none) := by
  refine ⟨by simp [routeChain, app, List.filter, HandlerId.isUpload],
    by simp [routeChain, app, List.filter, HandlerId.isUpload], ?_, ?_, ?_⟩
  · intro ext disk req hm hk
    rw [serve_steps, hm]
    rcases hk with hk | hk
    · rw [matched_register dirname req.pathname hk]
      exact le_trans (dispatchRoute_filesStored ext disk _ _) (by decide)
    · rw [matched_posts dirname req.pathname hk]
      exact le_trans (dispatchRoute_filesStored ext disk _ _) (by decide)
  · intro disk req ctx' h
    exact uploadSingle_forward disk "picture" req ctx' h
  · intro disk req hno hfile
    rw [uploadSingle_noFile disk "picture" req hno]
    exact ⟨rfl, req, rfl, hfile⟩

/-- C5 at a JSON request to `POST /auth/register`: nothing is stored, and the
upload middleware forwards a request without a file. -/
theorem C5_single_picture_file_witness :
    filesStored (serve sampleExternal healthyDisk "/srv/app/server"
      ⟨.POST, "/auth/register", plainRequest⟩).1 ≤ 1 ∧
    (uploadSingle healthyDisk "picture" plainRequest).effects = [] ∧
    ∃ ctx', (uploadSingle healthyDisk "picture" plainRequest).outcome = .next ctx' ∧
      ctx'.file = none :=
  ⟨(C5_single_picture_file "/srv/app/server").2.2.1 sampleExternal healthyDisk
      ⟨.POST, "/auth/register", plainRequest⟩ rfl (Or.inl (by decide)),
    (C5_single_picture_file "/srv/app/server").2.2.2.2 healthyDisk plainRequest trivial rfl⟩

/-- C6: on `POST /auth/register` and on `POST /posts`, when the upload
middleware reports an error, neither `register` nor `createPost` is invoked,
and the request ends with that error handed to the error handling. -/
theorem C6_upload_failure_skips_service (ext : External) (disk : Disk) (dirname : String)
    (req : Request) (e : String) (hm : req.method = .POST)
    (hk : routeMatches "/auth/register" req.pathname = true ∨ routeMatches "/posts" req.pathname = true)
    (hfail : ∃ s ∈ (serve ext disk dirname req).1,
      s.handler.isUpload = true ∧ s.outcome = .error e) :
    (∀ s ∈ (serve ext disk dirname req).1,
      s.handler ≠ .register ∧ s.handler ≠ .createPost) ∧
    (serve ext disk dirname req).2 = .error e := by
  obtain ⟨u, hu, hup, hue⟩ := hfail
  refine ⟨?_, serve_error ext disk dirname req u e hu hue⟩
  obtain ⟨k, hk'⟩ := List.mem_iff_getElem?.mp hu
  obtain ⟨u1, _, _⟩ := serve_getElem? ext disk dirname req k u hk'
  have stuck : ∀ j t, k < j → (serve ext disk dirname req).1[j]? = some t → False := by
    intro j t hlt ht
    obtain ⟨_, _, h3⟩ := serve_getElem? ext disk dirname req j t ht
    obtain ⟨u', hu', hf⟩ := h3 k hlt
    rw [hk'] at hu'
    simp only [Option.some.injEq] at hu'
    subst hu'
    rw [hue] at hf
    simp [Outcome.forwards] at hf
  intro s hs
  obtain ⟨i, hi⟩ := List.mem_iff_getElem?.mp hs
  obtain ⟨s1, _, _⟩ := serve_getElem? ext disk dirname req i s hi
  rw [hm] at u1 s1
  rcases hk with hk | hk
  · rw [matched_register dirname req.pathname hk] at u1 s1
    have hk7 : k = 7 := (register_position k u.handler u1).2.1 hup
    refine ⟨?_, register_not_createPost i s.handler s1⟩
    intro hreg
    have hi8 : i = 8 := (register_position i s.handler s1).2.2.1 hreg
    exact stuck i s (by omega) hi
  · rw [matched_posts dirname req.pathname hk] at u1 s1
    have hk8 : k = 8 := (posts_position k u.handler u1).2.1 hup
    refine ⟨posts_not_register i s.handler s1, ?_⟩
    intro hcp
    have hi9 : i = 9 := (posts_position i s.handler s1).2.2.1 hcp
    exact stuck i s (by omega) hi

/-- C6 at a `POST /posts` request with a token and a picture, on a full disk:
the upload fails with the write error and `createPost` never runs. -/
theorem C6_upload_failure_skips_service_witness :
    (∃ s ∈ (serve sampleExternal fullDisk "/srv/app/server"
        ⟨.POST, "/posts", signedUpload⟩).1,
      s.handler.isUpload = true ∧ s.outcome = .error "ENOSPC") ∧
    (∀ s ∈ (serve sampleExternal fullDisk "/srv/app/server"
        ⟨.POST, "/posts", signedUpload⟩).1,
      s.handler ≠ .register ∧ s.handler ≠ .createPost) ∧
    (serve sampleExternal fullDisk "/srv/app/server" ⟨.POST, "/posts", signedUpload⟩).2 =
      .error "ENOSPC" :=
  have hfail : ∃ s ∈ (serve sampleExternal fullDisk "/srv/app/server"
        ⟨.POST, "/posts", signedUpload⟩).1,
      s.handler.isUpload = true ∧ s.outcome = .error "ENOSPC" := by decide
  ⟨hfail, C6_upload_failure_skips_service sampleExternal fullDisk "/srv/app/server"
    ⟨.POST, "/posts", signedUpload⟩ "ENOSPC" rfl (Or.inr (by decide)) hfail⟩

/-- C7, evaluated with `index.js` in `/srv/app/server` and the server started
from `/srv/app`: the upload of `a.png` is written under `/srv/app/public/assets`
while `/assets/a.png` is read from `/srv/app/server/public/assets`, so the
directory written to and the directory served differ. Started from
`/srv/app/server`, the two coincide. -/
theorem C7_upload_directory_depends_on_cwd :
    uploadDirectory "/srv/app" anonymousUpload picture = "/srv/app/public/assets" ∧
    staticRoot "/srv/app/server" = "/srv/app/server/public/assets" ∧
    uploadDirectory "/srv/app" anonymousUpload picture ≠ staticRoot "/srv/app/server" ∧
    writtenFile "/srv/app" anonymousUpload picture = .ok "/srv/app/public/assets/a.png" ∧
    servedFile "/srv/app/server" "a.png" = "/srv/app/server/public/assets/a.png" ∧
    uploadDirectory "/srv/app/server" anonymousUpload picture = staticRoot "/srv/app/server" :=
  ⟨by decide, by decide, by decide, rfl, by decide, by decide⟩

/-- C8: the port passed to `app.listen` is `PORT`, and `PORT` is the value of
the environment variable `PORT` when it is set to a non-empty string, and the
number 6001 when it is unset or empty. -/
theorem C8_listen_port (env : Env) (lis : ListenResult) :
    (start env .resolved lis).filter StartEvent.isListen = [.listen (PORT env)] ∧
    PORT env =
      match env "PORT" with
      | some s => if s = "" then .num 6001 else .str s
      | none => .num 6001 := by
  constructor
  · cases lis <;> simp [start, List.filter, StartEvent.isListen]
  · unfold PORT Env.read JsValue.or
    cases h : env "PORT" with
    | none => simp [JsValue.truthy]
    | some s =>
      by_cases hs : s = ""
      · simp [JsValue.truthy, hs]
      · simp [JsValue.truthy, hs]

/-- C9: the two file routes precede the `/auth`, `/users` and `/posts` routers
in the stack; for a `POST /auth/register` request the first layer matching by
path is the chain `upload.single("picture")`, `register`, and `authRoute` is
invoked only after both have been invoked and have forwarded; for a
`POST /posts` request the first is `verifyToken`, `upload.single("picture")`,
`createPost`, and `postRoutes` is invoked only after all three have been
invoked and have forwarded, whatever the routers do. -/
theorem C9_file_routes_take_precedence (dirname url : String) :
    (app dirname).drop 8 =
      [.route .POST "/auth/register" [.uploadSingle "picture", .register],
        .route .POST "/posts" [.verifyToken, .uploadSingle "picture", .createPost],
        .mount "/auth" .authRoute, .mount "/users" .userRoutes, .mount "/posts" .postRoutes] ∧
    (routeMatches "/auth/register" url = true →
      firstPathMatch .POST url (app dirname) = some [.uploadSingle "picture", .register] ∧
      ∀ (ext : External) (disk : Disk) (ctx : Ctx) (i : Nat) (s : Step),
        (serve ext disk dirname ⟨.POST, url, ctx⟩).1[i]? = some s → s.handler = .authRoute →
        ∃ a b, (serve ext disk dirname ⟨.POST, url, ctx⟩).1[7]? = some a ∧
          (serve ext disk dirname ⟨.POST, url, ctx⟩).1[8]? = some b ∧ 8 < i ∧
          a.handler = .uploadSingle "picture" ∧ a.outcome.forwards = true ∧
          b.handler = .register ∧ b.outcome.forwards = true) ∧
    (routeMatches "/posts" url = true →
      firstPathMatch .POST url (app dirname) =
        some [.verifyToken, .uploadSingle "picture", .createPost] ∧
      ∀ (ext : External) (disk : Disk) (ctx : Ctx) (i : Nat) (s : Step),
        (serve ext disk dirname ⟨.POST, url, ctx⟩).1[i]? = some s → s.handler = .postRoutes →
        ∃ a b c, (serve ext disk dirname ⟨.POST, url, ctx⟩).1[7]? = some a ∧
          (serve ext disk dirname ⟨.POST, url, ctx⟩).1[8]? = some b ∧
          (serve ext disk dirname ⟨.POST, url, ctx⟩).1[9]? = some c ∧ 9 < i ∧
          a.handler = .verifyToken ∧ a.outcome.forwards = true ∧
          b.handler = .uploadSingle "picture" ∧ b.outcome.forwards = true ∧
          c.handler = .createPost ∧ c.outcome.forwards = true) := by
  refine ⟨rfl, ?_, ?_⟩
  · intro hk
    refine ⟨firstPathMatch_register dirname url hk, ?_⟩
    intro ext disk ctx i s hi hs
    have pos : ∀ (j : Nat) (t : Step), (serve ext disk dirname ⟨.POST, url, ctx⟩).1[j]? = some t →
        (globalMiddleware ++ [.uploadSingle "picture", .register, .authRoute])[j]? =
          some t.handler := by
      intro j t ht
      have := (serve_getElem? ext disk dirname ⟨.POST, url, ctx⟩ j t ht).1
      rwa [matched_register dirname url hk] at this
    obtain ⟨_, _, h3⟩ := serve_getElem? ext disk dirname ⟨.POST, url, ctx⟩ i s hi
    have hi9 : i = 9 := (register_position i s.handler (pos i s hi)).2.2.2.1 hs
    obtain ⟨a, ha, haf⟩ := h3 7 (by omega)
    obtain ⟨b, hb, hbf⟩ := h3 8 (by omega)
    exact ⟨a, b, ha, hb, by omega,
      (register_position 7 a.handler (pos 7 a ha)).2.2.2.2.1 rfl, haf,
      (register_position 8 b.handler (pos 8 b hb)).2.2.2.2.2 rfl, hbf⟩
  · intro hk
    refine ⟨firstPathMatch_posts dirname url hk, ?_⟩
    intro ext disk ctx i s hi hs
    have pos : ∀ (j : Nat) (t : Step), (serve ext disk dirname ⟨.POST, url, ctx⟩).1[j]? = some t →
        (globalMiddleware ++
          [.verifyToken, .uploadSingle "picture", .createPost, .postRoutes])[j]? =
          some t.handler := by
      intro j t ht
      have := (serve_getElem? ext disk dirname ⟨.POST, url, ctx⟩ j t ht).1
      rwa [matched_posts dirname url hk] at this
    obtain ⟨_, _, h3⟩ := serve_getElem? ext disk dirname ⟨.POST, url, ctx⟩ i s hi
    have hi10 : i = 10 := (posts_position i s.handler (pos i s hi)).2.2.2.1 hs
    obtain ⟨a, ha, haf⟩ := h3 7 (by omega)
    obtain ⟨b, hb, hbf⟩ := h3 8 (by omega)
    obtain ⟨c, hc, hcf⟩ := h3 9 (by omega)
    exact ⟨a, b, c, ha, hb, hc, by omega,
      (posts_position 7 a.handler (pos 7 a ha)).2.2.2.2.1 rfl, haf,
      (posts_position 8 b.handler (pos 8 b hb)).2.2.2.2.2.1 rfl, hbf,
      (posts_position 9 c.handler (pos 9 c hc)).2.2.2.2.2.2 rfl, hcf⟩

/-- C9 at the URLs `/auth/register` and `/posts`. -/
theorem C9_file_routes_take_precedence_witness :
    firstPathMatch .POST "/auth/register" (app "/srv/app/server") =
      some [.uploadSingle "picture", .register] ∧
    firstPathMatch .POST "/posts" (app "/srv/app/server") =
      some [.verifyToken, .uploadSingle "picture", .createPost] :=
  ⟨((C9_file_routes_take_precedence "/srv/app/server" "/auth/register").2.1 (by decide)).1,
    ((C9_file_routes_take_precedence "/srv/app/server" "/posts").2.2 (by decide)).1⟩

/-- C10: `app.listen` is called exactly once when the connection promise
resolves and never when it rejects; it is called after `mongoose.connect`; and
on a rejected connection the process only logs the error. -/
theorem C10_listen_only_after_connect (env : Env) (lis : ListenResult) :
    (∀ conn : ConnectResult,
      (start env conn lis).countP StartEvent.isListen = if conn = .resolved then 1 else 0) ∧
    (∀ conn : ConnectResult,
      (start env conn lis).head? = some (.connect (Env.read env "MONGO_URL"))) ∧
    (∀ error : String,
      start env (.rejected error) lis =
        [.connect (Env.read env "MONGO_URL"), .log (error ++ " did not connect")]) := by
  refine ⟨?_, ?_, ?_⟩
  · intro conn
    cases conn <;> cases lis <;> simp [start, StartEvent.isListen]
  · intro conn
    simp [start]
  · intro error
    rfl

end SocialMedia
